import Mathlib

/-!
Verification of the BareMetalNIC ARM64 driver (`ARM64NICDriver` in
`arm64_nic_driver.hpp`, namespace `ull_nic`).

Shallow embedding conventions:
- machine integers become `Nat`; the only place 32-bit wraparound is
  observable is the `rx_head_ - 1` doorbell computation in
  `receive_packet`, modelled explicitly as `(x + 2^32 - 1) % 2^32`
  (exact for `x < 2^32`, which holds since cursors stay below the ring
  size).  All other arithmetic is immediately masked by
  `&&& (ringSize - 1)` with `ringSize - 1 < 2^32`, so the 32-bit wrap
  is invisible and is omitted.  The 64-bit statistics counters cannot
  wrap on any feasible run and are plain `Nat`.
- pointers become `Nat` addresses; each memory region (TX buffers, RX
  buffers, caller data) is a separate byte function `Nat → Nat`
  indexed from its own base, mirroring the distinct C allocations.
- the ring arrays are total functions `Nat → Descriptor`; the source
  only ever indexes them with masked (hence in-range) indices.
- MMIO register writes are recorded in a `Nat → Nat` register file.
- the observable calls `receive_packet` makes (register writes,
  invocations of any caller-supplied function) are returned as an
  `ObsEvent` trace, so that claims about what the function does and
  does not call can be settled.
- the ring size is a parameter `size` of every operation; the source
  fixes it to `TX_RING_SIZE = RX_RING_SIZE = 2048`, and the spec's
  concrete scenario instantiates it at 8.
-/

namespace BareMetalNIC

/-- DESC_STATUS_DD = (1 << 0), the descriptor done / ownership flag. -/
def DESC_STATUS_DD : Nat := 1

/-- DESC_STATUS_EOP = (1 << 1), end-of-packet flag. -/
def DESC_STATUS_EOP : Nat := 2

/-- MAX_PACKET_SIZE = 9216 bytes, the size of one buffer slot. -/
def MAX_PACKET_SIZE : Nat := 9216

/-- TX_RING_SIZE = 2048 descriptors. -/
def TX_RING_SIZE : Nat := 2048

/-- RX_RING_SIZE = 2048 descriptors. -/
def RX_RING_SIZE : Nat := 2048

/-- CTRL_RESET = (1 << 26), device reset command/status bit. -/
def CTRL_RESET : Nat := 2 ^ 26

/-- Register offset REG_RX_DESC_TAIL = 0x2818 (RX doorbell). -/
def REG_RX_DESC_TAIL : Nat := 0x2818

/-- Register offset REG_TX_DESC_TAIL = 0x3818 (TX doorbell). -/
def REG_TX_DESC_TAIL : Nat := 0x3818

/-- TX descriptor: `struct TxDescriptor { uint64_t buffer_addr;
uint32_t cmd_type_len; uint32_t status; uint64_t reserved[5]; }`.
The padding words are never read or written and are not modelled. -/
structure TxDescriptor where
  buffer_addr : Nat
  cmd_type_len : Nat
  status : Nat
deriving DecidableEq

/-- RX descriptor: `struct RxDescriptor { uint64_t buffer_addr;
uint16_t length; uint16_t checksum; uint32_t status; ... }`.  The
rss_hash / timestamp / padding fields are never touched by the driver
code and are not modelled. -/
structure RxDescriptor where
  buffer_addr : Nat
  length : Nat
  checksum : Nat
  status : Nat
deriving DecidableEq

/-- Observable calls made by the hot-path functions: MMIO register
writes (`write_reg`), and invocations of a caller-supplied packet
handler.  The second constructor exists so that the spec sentence
"invokes the caller-supplied packet handler" can be stated against
the code; `ARM64NICDriver` itself never performs such a call. -/
inductive ObsEvent where
  | regWrite (offset value : Nat)
  | handlerInvoke (bufferAddr len : Nat)
deriving DecidableEq

/-- True exactly on handler-invocation events. -/
def ObsEvent.isHandlerInvoke : ObsEvent → Bool
  | ObsEvent.handlerInvoke _ _ => true
  | ObsEvent.regWrite _ _ => false

/-- The mutable driver object state: rings, buffer pools (with their
virtual base addresses), cursors, statistics counters and the
memory-mapped register file.  Mirrors the data members of
`ARM64NICDriver`. -/
structure DriverState where
  tx_ring : Nat → TxDescriptor
  rx_ring : Nat → RxDescriptor
  tx_buffers : Nat → Nat
  rx_buffers : Nat → Nat
  tx_buffers_base : Nat
  rx_buffers_base : Nat
  rx_head : Nat
  tx_head : Nat
  tx_tail : Nat
  packets_received : Nat
  packets_sent : Nat
  regs : Nat → Nat

/-- `get_physical_addr`: `return reinterpret_cast<uint64_t>(virt_addr);`
— the raw virtual address, no translation. -/
def get_physical_addr (virt_addr : Nat) : Nat := virt_addr

/-- `write_reg(offset, value)`: store into the register file. -/
def write_reg (regs : Nat → Nat) (offset value : Nat) : Nat → Nat :=
  fun o => if o = offset then value else regs o

/-- The byte-wise copy loop `while (n--) *d++ = *s++;` (also the
semantics of `std::memcpy` for the non-overlapping regions the driver
copies between).  `dst`/`src` are separate byte regions, written from
`dbase` resp. read from `sbase`. -/
def memcpy_loop (dst src : Nat → Nat) (dbase sbase : Nat) : Nat → Nat → Nat
  | 0 => dst
  | n + 1 =>
      memcpy_loop (fun a => if a = dbase then src sbase else dst a) src
        (dbase + 1) (sbase + 1) n

/-- Closed form of a forward copy of `n` bytes from `src`/`sbase`
into `dst`/`dbase`. -/
def memcpy_spec (dst src : Nat → Nat) (dbase sbase n : Nat) : Nat → Nat :=
  fun a => if dbase ≤ a ∧ a < dbase + n then src (sbase + (a - dbase)) else dst a

/-- `vld1q_u8(s + sbase)`: load a 16-byte vector from `src`. -/
def vld16 (src : Nat → Nat) (sbase : Nat) : Nat → Nat :=
  fun i => src (sbase + i)

/-- `vst1q_u8(d + dbase, v)`: store a 16-byte vector into `dst`. -/
def vst16 (dst : Nat → Nat) (dbase : Nat) (v : Nat → Nat) : Nat → Nat :=
  fun a => if dbase ≤ a ∧ a < dbase + 16 then v (a - dbase) else dst a

/-- The `while (n >= 64)` NEON loop of `neon_memcpy`, written with a
structural fuel so it computes by kernel reduction.  Each iteration
consumes at least 64 bytes, so `fuel = n` (see `neon_memcpy`) is never
exhausted before `n < 64`; the fuel-0 fallback is the same trailing
byte loop and keeps the semantics exact for every fuel. -/
def neonAux (src : Nat → Nat) : Nat → (Nat → Nat) → Nat → Nat → Nat → Nat → Nat
  | 0, dst, dbase, sbase, n => memcpy_loop dst src dbase sbase n
  | fuel + 1, dst, dbase, sbase, n =>
      if 64 ≤ n then
        let v0 := vld16 src sbase
        let v1 := vld16 src (sbase + 16)
        let v2 := vld16 src (sbase + 32)
        let v3 := vld16 src (sbase + 48)
        let d1 := vst16 dst dbase v0
        let d2 := vst16 d1 (dbase + 16) v1
        let d3 := vst16 d2 (dbase + 32) v2
        let d4 := vst16 d3 (dbase + 48) v3
        neonAux src fuel d4 (dbase + 64) (sbase + 64) (n - 64)
      else
        memcpy_loop dst src dbase sbase n

/-- `neon_memcpy(dst, src, n)`: 64-byte NEON vector chunks while
`n >= 64`, then the trailing byte loop. -/
def neon_memcpy (dst src : Nat → Nat) (dbase sbase n : Nat) : Nat → Nat :=
  neonAux src n dst dbase sbase n

/-- The `reclaim_tx_descriptors` loop body: starting from `head`,
advance past descriptors whose DD bit hardware has set, stopping at
`tail` or at the first descriptor still owned by hardware.  The loop
runs at most `size - 1` times for in-range cursors, so the structural
fuel `size` passed by `reclaim_tx_descriptors` is never exhausted. -/
def reclaimAux (size : Nat) (ring : Nat → TxDescriptor) (tail : Nat) :
    Nat → Nat → Nat
  | head, 0 => head
  | head, fuel + 1 =>
      if head ≠ tail ∧ (ring head).status &&& DESC_STATUS_DD ≠ 0 then
        reclaimAux size ring tail ((head + 1) &&& (size - 1)) fuel
      else head

/-- `reclaim_tx_descriptors()`: advances `tx_head_` past completed
descriptors; touches nothing else. -/
def reclaim_tx_descriptors (size : Nat) (s : DriverState) : DriverState :=
  { s with tx_head := reclaimAux size s.tx_ring s.tx_tail s.tx_head size }

/-- The non-full tail of `send_packet`: copy the payload (NEON path at
64 bytes and above, byte loop below), fill in the descriptor
(`buffer_addr` via `get_physical_addr`, `cmd_type_len = length | EOP`,
status released to 0), advance `tx_tail_`, ring the TX doorbell,
bump the counter. -/
def send_commit (s : DriverState) (data : Nat → Nat)
    (length next_tail : Nat) : Bool × DriverState :=
  let tb := s.tx_tail * MAX_PACKET_SIZE
  let bufs :=
    if 64 ≤ length then neon_memcpy s.tx_buffers data tb 0 length
    else memcpy_loop s.tx_buffers data tb 0 length
  let tx_buffer_addr := s.tx_buffers_base + s.tx_tail * MAX_PACKET_SIZE
  let desc : TxDescriptor :=
    { buffer_addr := get_physical_addr tx_buffer_addr
      cmd_type_len := length ||| DESC_STATUS_EOP
      status := 0 }
  (true,
    { s with
        tx_ring := fun i => if i = s.tx_tail then desc else s.tx_ring i
        tx_buffers := bufs
        tx_tail := next_tail
        regs := write_reg s.regs REG_TX_DESC_TAIL next_tail
        packets_sent := s.packets_sent + 1 })

/-- `send_packet(data, length)`: compute the masked successor of the
producer cursor; if it equals the consumer cursor, reclaim completed
descriptors and re-check; if still full, fail (RingFullError, i.e.
`false`); otherwise commit the packet. -/
def send_packet (size : Nat) (s : DriverState) (data : Nat → Nat)
    (length : Nat) : Bool × DriverState :=
  let next_tail := (s.tx_tail + 1) &&& (size - 1)
  if next_tail = s.tx_head then
    let s1 := reclaim_tx_descriptors size s
    if next_tail = s1.tx_head then (false, s1)
    else send_commit s1 data length next_tail
  else send_commit s data length next_tail

/-- `receive_packet(&packet_out, &len_out)`: read the status word of
the descriptor at `rx_head_`; if DD is clear return no-packet with
nothing changed; otherwise deliver the buffer address and length,
clear the status word, advance `rx_head_` by masked increment, write
the RX doorbell with the 32-bit value `(rx_head_ - 1) & (size - 1)`,
and bump the counter.  The returned trace lists the observable calls
the function made. -/
def receive_packet (size : Nat) (s : DriverState) :
    Option (Nat × Nat) × DriverState × List ObsEvent :=
  let desc := s.rx_ring s.rx_head
  if desc.status &&& DESC_STATUS_DD = 0 then
    (none, s, [])
  else
    let packet := s.rx_buffers_base + s.rx_head * MAX_PACKET_SIZE
    let len := desc.length
    let ring' := fun i => if i = s.rx_head then { desc with status := 0 } else s.rx_ring i
    let head' := (s.rx_head + 1) &&& (size - 1)
    let doorbell := ((head' + (2 ^ 32 - 1)) % 2 ^ 32) &&& (size - 1)
    (some (packet, len),
      { s with
          rx_ring := ring'
          rx_head := head'
          regs := write_reg s.regs REG_RX_DESC_TAIL doorbell
          packets_received := s.packets_received + 1 },
      [ObsEvent.regWrite REG_RX_DESC_TAIL doorbell])

/-- Iterate `send_packet` `n` times with the same payload, collecting
each call's success flag in order. -/
def sendN (size : Nat) (data : Nat → Nat) (length : Nat) :
    Nat → DriverState → List Bool × DriverState
  | 0, s => ([], s)
  | n + 1, s =>
      let p := sendN size data length n s
      let q := send_packet size p.2 data length
      (p.1 ++ [q.1], q.2)

/-- The RX ring produced by `allocate_rings`: zeroed descriptors with
`buffer_addr = get_physical_addr(rx_buffers_ + i * MAX_PACKET_SIZE)`
for every slot `i < size`. -/
def initialRxRing (size rxBase : Nat) : Nat → RxDescriptor :=
  fun i =>
    if i < size then
      { buffer_addr := get_physical_addr (rxBase + i * MAX_PACKET_SIZE)
        length := 0, checksum := 0, status := 0 }
    else
      { buffer_addr := 0, length := 0, checksum := 0, status := 0 }

/-- Driver state right after a successful `initialize()`: both rings
zeroed by `memset` (RX descriptors then given their buffer addresses),
all cursors zero (constructor), counters zero.  The buffer-pool
contents and register file are whatever they are
(`aligned_alloc` does not clear them), hence parameters. -/
def freshState (size txBase rxBase : Nat) (txMem rxMem regs0 : Nat → Nat) :
    DriverState :=
  { tx_ring := fun _ => { buffer_addr := 0, cmd_type_len := 0, status := 0 }
    rx_ring := initialRxRing size rxBase
    tx_buffers := txMem
    rx_buffers := rxMem
    tx_buffers_base := txBase
    rx_buffers_base := rxBase
    rx_head := 0
    tx_head := 0
    tx_tail := 0
    packets_received := 0
    packets_sent := 0
    regs := regs0 }

/-- The `for (i = 0; i < 1000; i++)` poll of `reset_device`:
`ctrl j` is the value the j-th read of REG_CTRL returns; the loop
returns `true` as soon as CTRL_RESET reads clear and `false` when the
budget is exhausted. -/
def resetAux (ctrl : Nat → Nat) : Nat → Nat → Bool
  | _, 0 => false
  | i, fuel + 1 =>
      if ctrl i &&& CTRL_RESET = 0 then true else resetAux ctrl (i + 1) fuel

/-- `reset_device()` after the CTRL_RESET write: poll at most 1000
times. -/
def reset_device (ctrl : Nat → Nat) : Bool := resetAux ctrl 0 1000

/-- Number of REG_CTRL reads the poll of `reset_device` performs. -/
def resetReads (ctrl : Nat → Nat) : Nat → Nat → Nat
  | _, 0 => 0
  | i, fuel + 1 =>
      if ctrl i &&& CTRL_RESET = 0 then 1 else 1 + resetReads ctrl (i + 1) fuel

/-- `MAP_FAILED = (void*)-1`. -/
def MAP_FAILED : Nat := 2 ^ 64 - 1

/-- The resource-holding fields of `ARM64NICDriver` that `cleanup()`
consults: `initialized_` (named `devReady` here; the gate on the
register clears), the mapped `bar0_base_` and the four region
pointers, each `0` when null. -/
structure ResourceState where
  devReady : Bool
  bar0_base : Nat
  rx_ring_ptr : Nat
  tx_ring_ptr : Nat
  rx_buffers_ptr : Nat
  tx_buffers_ptr : Nat
deriving DecidableEq

/-- Resource-release actions `cleanup()` can perform. -/
inductive ReleaseEvent where
  | regClear
  | munmapCall (addr : Nat)
  | freeCall (ptr : Nat)
deriving DecidableEq

/-- `cleanup()`: clear the enable registers when `initialized_`,
`munmap` a valid mapping, `free` every non-null region pointer.  The
function mutates none of the object's fields — in particular it does
not null the pointers nor clear `initialized_` — so the state it
returns is its argument, and the effects are the returned event
list. -/
def cleanup (s : ResourceState) : ResourceState × List ReleaseEvent :=
  let ev0 := if s.devReady then [ReleaseEvent.regClear] else []
  let ev1 :=
    if s.bar0_base ≠ 0 ∧ s.bar0_base ≠ MAP_FAILED then
      [ReleaseEvent.munmapCall s.bar0_base]
    else []
  let ev2 := if s.rx_ring_ptr ≠ 0 then [ReleaseEvent.freeCall s.rx_ring_ptr] else []
  let ev3 := if s.tx_ring_ptr ≠ 0 then [ReleaseEvent.freeCall s.tx_ring_ptr] else []
  let ev4 := if s.rx_buffers_ptr ≠ 0 then [ReleaseEvent.freeCall s.rx_buffers_ptr] else []
  let ev5 := if s.tx_buffers_ptr ≠ 0 then [ReleaseEvent.freeCall s.tx_buffers_ptr] else []
  (s, ev0 ++ ev1 ++ ev2 ++ ev3 ++ ev4 ++ ev5)

/-- Forward distance from slot `a` to slot `b` around a ring of
`size` slots: the number of occupied slots between the consumer
cursor `a` and the producer cursor `b`. -/
def ringDist (size a b : Nat) : Nat := (b + size - a) % size

/-! ### Copy-path lemmas -/

/-- The byte loop realises the closed-form forward copy. -/
theorem memcpy_loop_eq_spec (src : Nat → Nat) :
    ∀ (n : Nat) (dst : Nat → Nat) (dbase sbase : Nat),
      memcpy_loop dst src dbase sbase n = memcpy_spec dst src dbase sbase n := by
  intro n
  induction n with
  | zero =>
      intro dst dbase sbase
      funext a
      simp only [memcpy_loop, memcpy_spec]
      exact (if_neg (by omega)).symm
  | succ m ih =>
      intro dst dbase sbase
      funext a
      rw [memcpy_loop, ih]
      simp only [memcpy_spec]
      by_cases h1 : dbase + 1 ≤ a ∧ a < dbase + 1 + m
      · rw [if_pos h1, if_pos (by omega : dbase ≤ a ∧ a < dbase + (m + 1))]
        congr 1
        omega
      · rw [if_neg h1]
        by_cases h2 : a = dbase
        · rw [if_pos h2, if_pos (by omega : dbase ≤ a ∧ a < dbase + (m + 1))]
          congr 1
          omega
        · rw [if_neg h2, if_neg (by omega : ¬(dbase ≤ a ∧ a < dbase + (m + 1)))]

/-- One 64-byte NEON chunk followed by a copy of the remaining
`n - 64` bytes equals the full forward copy of `n` bytes. -/
theorem vchunk_step (dst src : Nat → Nat) (dbase sbase n : Nat) (h64 : 64 ≤ n) :
    memcpy_spec
      (vst16 (vst16 (vst16 (vst16 dst dbase (vld16 src sbase))
          (dbase + 16) (vld16 src (sbase + 16)))
          (dbase + 32) (vld16 src (sbase + 32)))
          (dbase + 48) (vld16 src (sbase + 48)))
      src (dbase + 64) (sbase + 64) (n - 64)
      = memcpy_spec dst src dbase sbase n := by
  funext a
  simp only [memcpy_spec, vst16, vld16]
  split_ifs <;> first | rfl | (apply congrArg; omega) | omega

/-- The fuelled NEON loop computes the closed-form forward copy for
every fuel value. -/
theorem neonAux_eq_spec (src : Nat → Nat) :
    ∀ (fuel : Nat) (dst : Nat → Nat) (dbase sbase n : Nat),
      neonAux src fuel dst dbase sbase n = memcpy_spec dst src dbase sbase n := by
  intro fuel
  induction fuel with
  | zero =>
      intro dst dbase sbase n
      rw [neonAux, memcpy_loop_eq_spec]
  | succ f ih =>
      intro dst dbase sbase n
      rw [neonAux]
      by_cases h64 : 64 ≤ n
      · rw [if_pos h64]
        rw [ih]
        exact vchunk_step dst src dbase sbase n h64
      · rw [if_neg h64, memcpy_loop_eq_spec]

/-- `neon_memcpy` is exactly the byte-wise copy. -/
theorem neon_memcpy_eq_loop (dst src : Nat → Nat) (dbase sbase n : Nat) :
    neon_memcpy dst src dbase sbase n = memcpy_loop dst src dbase sbase n := by
  rw [neon_memcpy, neonAux_eq_spec, memcpy_loop_eq_spec]

/-! ### Ring-distance lemmas -/

/-- Unfolded form of `ringDist` for in-range cursors. -/
theorem ringDist_eq (size a b : Nat) (ha : a < size) (hb : b < size) :
    ringDist size a b = if a ≤ b then b - a else b + size - a := by
  unfold ringDist
  by_cases h : a ≤ b
  · rw [if_pos h]
    have h1 : b + size - a = b - a + size := by omega
    rw [h1, Nat.add_mod_right, Nat.mod_eq_of_lt (by omega)]
  · rw [if_neg h]
    exact Nat.mod_eq_of_lt (by omega)

/-- The forward distance is zero exactly between equal cursors. -/
theorem ringDist_zero_iff (size a b : Nat) (ha : a < size) (hb : b < size) :
    ringDist size a b = 0 ↔ a = b := by
  rw [ringDist_eq size a b ha hb]
  split_ifs with h <;> omega

/-- Advancing the consumer cursor by one shrinks the forward distance
to the producer cursor by one. -/
theorem ringDist_succ (size a b : Nat) (ha : a < size) (hb : b < size)
    (hne : a ≠ b) :
    ringDist size ((a + 1) % size) b = ringDist size a b - 1 := by
  by_cases h1 : a + 1 < size
  · rw [Nat.mod_eq_of_lt h1, ringDist_eq size (a + 1) b h1 hb,
      ringDist_eq size a b ha hb]
    split_ifs <;> omega
  · have hsz : a + 1 = size := by omega
    have hz : (a + 1) % size = 0 := by rw [hsz]; exact Nat.mod_self size
    rw [hz, ringDist_eq size 0 b (by omega) hb, ringDist_eq size a b ha hb]
    split_ifs <;> omega

/-! ### Reclamation: the loop advances the consumer cursor past the
maximal contiguous run of hardware-completed descriptors. -/

/-- Characterisation of `reclaimAux` on a power-of-two ring: the
cursor advances by some `r` bounded by the occupied distance, every
descriptor it stepped over had its DD bit set, and it stopped either
at the producer cursor or at the first descriptor whose DD bit is
clear — i.e. it moved past exactly the maximal contiguous completed
run that starts at the consumer cursor. -/
theorem reclaimAux_spec (k : Nat) (ring : Nat → TxDescriptor) (tail : Nat)
    (htail : tail < 2 ^ k) :
    ∀ (fuel head : Nat), head < 2 ^ k →
      ringDist (2 ^ k) head tail ≤ fuel →
      ∃ r, r ≤ ringDist (2 ^ k) head tail ∧
        reclaimAux (2 ^ k) ring tail head fuel = (head + r) % 2 ^ k ∧
        (∀ j, j < r → (ring ((head + j) % 2 ^ k)).status &&& DESC_STATUS_DD ≠ 0) ∧
        (r = ringDist (2 ^ k) head tail ∨
          (ring ((head + r) % 2 ^ k)).status &&& DESC_STATUS_DD = 0) := by
  intro fuel
  induction fuel with
  | zero =>
      intro head hh hd
      refine ⟨0, Nat.zero_le _, ?_, ?_, Or.inl (by omega)⟩
      · rw [reclaimAux, Nat.add_zero, Nat.mod_eq_of_lt hh]
      · intro j hj
        exact absurd hj (Nat.not_lt_zero j)
  | succ f ih =>
      intro head hh hd
      rw [reclaimAux]
      by_cases hc : head ≠ tail ∧ (ring head).status &&& DESC_STATUS_DD ≠ 0
      · rw [if_pos hc]
        have hmask : (head + 1) &&& (2 ^ k - 1) = (head + 1) % 2 ^ k :=
          Nat.and_pow_two_sub_one_eq_mod _ _
        have hh1 : (head + 1) % 2 ^ k < 2 ^ k :=
          Nat.mod_lt _ (by positivity)
        have hdpos : ringDist (2 ^ k) head tail ≠ 0 := fun h0 =>
          hc.1 ((ringDist_zero_iff _ _ _ hh htail).mp h0)
        have hd1 : ringDist (2 ^ k) ((head + 1) % 2 ^ k) tail =
            ringDist (2 ^ k) head tail - 1 :=
          ringDist_succ _ _ _ hh htail hc.1
        obtain ⟨r, hr1, hr2, hr3, hr4⟩ :=
          ih ((head + 1) % 2 ^ k) hh1 (by omega)
        refine ⟨r + 1, by omega, ?_, ?_, ?_⟩
        · rw [hmask, hr2, Nat.mod_add_mod]
          congr 1
          omega
        · intro j hj
          cases j with
          | zero =>
              rw [Nat.add_zero, Nat.mod_eq_of_lt hh]
              exact hc.2
          | succ j' =>
              have hj3 := hr3 j' (by omega)
              rw [Nat.mod_add_mod] at hj3
              have e : head + 1 + j' = head + (j' + 1) := by omega
              rw [e] at hj3
              exact hj3
        · rcases hr4 with h | h
          · left
            omega
          · right
            rw [Nat.mod_add_mod] at h
            have e : head + 1 + r = head + (r + 1) := by omega
            rw [e] at h
            exact h
      · rw [if_neg hc]
        push_neg at hc
        by_cases he : head = tail
        · exact ⟨0, Nat.zero_le _,
            by rw [Nat.add_zero, Nat.mod_eq_of_lt hh],
            fun j hj => absurd hj (Nat.not_lt_zero j),
            Or.inl ((ringDist_zero_iff _ _ _ hh htail).mpr he).symm⟩
        · exact ⟨0, Nat.zero_le _,
            by rw [Nat.add_zero, Nat.mod_eq_of_lt hh],
            fun j hj => absurd hj (Nat.not_lt_zero j),
            Or.inr (by rw [Nat.add_zero, Nat.mod_eq_of_lt hh]; exact hc he)⟩

/-- `reclaim_tx_descriptors` on a power-of-two ring advances the
consumer cursor past exactly the maximal contiguous run of completed
descriptors starting at the consumer cursor (and only that). -/
theorem reclaim_spec (k : Nat) (s : DriverState) (hh : s.tx_head < 2 ^ k)
    (ht : s.tx_tail < 2 ^ k) :
    ∃ r, r ≤ ringDist (2 ^ k) s.tx_head s.tx_tail ∧
      (reclaim_tx_descriptors (2 ^ k) s).tx_head = (s.tx_head + r) % 2 ^ k ∧
      (∀ j, j < r →
        (s.tx_ring ((s.tx_head + j) % 2 ^ k)).status &&& DESC_STATUS_DD ≠ 0) ∧
      (r = ringDist (2 ^ k) s.tx_head s.tx_tail ∨
        (s.tx_ring ((s.tx_head + r) % 2 ^ k)).status &&& DESC_STATUS_DD = 0) := by
  have hfuel : ringDist (2 ^ k) s.tx_head s.tx_tail ≤ 2 ^ k :=
    le_of_lt (Nat.mod_lt _ (by positivity))
  exact reclaimAux_spec k s.tx_ring s.tx_tail ht (2 ^ k) s.tx_head hh hfuel

/-! ### Send-path lemmas -/

/-- When the ring is not full, `send_packet` succeeds without
reclaiming: the producer cursor moves to its masked successor, the
consumer cursor is untouched and the sent counter increments. -/
theorem send_packet_not_full (size : Nat) (s : DriverState) (data : Nat → Nat)
    (len : Nat) (h : (s.tx_tail + 1) &&& (size - 1) ≠ s.tx_head) :
    (send_packet size s data len).1 = true ∧
    (send_packet size s data len).2.tx_tail = (s.tx_tail + 1) &&& (size - 1) ∧
    (send_packet size s data len).2.tx_head = s.tx_head ∧
    (send_packet size s data len).2.packets_sent = s.packets_sent + 1 := by
  simp [send_packet, send_commit, h]

/-- The TX buffer pool after `send_packet`: on success it is the
byte-wise forward copy of `len` payload bytes into the producer slot
(whichever copy path ran); on failure it is unchanged. -/
theorem send_buffers_eq (size : Nat) (s : DriverState) (data : Nat → Nat)
    (len : Nat) :
    (send_packet size s data len).2.tx_buffers =
      if (send_packet size s data len).1 = true then
        memcpy_spec s.tx_buffers data (s.tx_tail * MAX_PACKET_SIZE) 0 len
      else s.tx_buffers := by
  by_cases h1 : (s.tx_tail + 1) &&& (size - 1) = s.tx_head
  · by_cases h2 :
      (s.tx_tail + 1) &&& (size - 1) = (reclaim_tx_descriptors size s).tx_head
    · have hs : send_packet size s data len = (false, reclaim_tx_descriptors size s) := by
        simp only [send_packet]
        rw [if_pos h1, if_pos h2]
      rw [hs]
      simp [reclaim_tx_descriptors]
    · have hs : send_packet size s data len =
          send_commit (reclaim_tx_descriptors size s) data len
            ((s.tx_tail + 1) &&& (size - 1)) := by
        simp only [send_packet]
        rw [if_pos h1, if_neg h2]
      rw [hs]
      simp [send_commit, reclaim_tx_descriptors, neon_memcpy_eq_loop,
        memcpy_loop_eq_spec]
  · have hs : send_packet size s data len =
        send_commit s data len ((s.tx_tail + 1) &&& (size - 1)) := by
      simp only [send_packet]
      rw [if_neg h1]
    rw [hs]
    simp [send_commit, neon_memcpy_eq_loop, memcpy_loop_eq_spec]

/-- Sending `j ≤ size - 1` packets into a fresh power-of-two ring
never triggers the full test: every send succeeds, the producer
cursor ends at `j`, the consumer cursor stays 0 and the sent counter
is `j`. -/
theorem sendN_fresh_inv (k : Nat) (data : Nat → Nat)
    (len txBase rxBase : Nat) (txMem rxMem regs0 : Nat → Nat) :
    ∀ j, j < 2 ^ k →
      (sendN (2 ^ k) data len j
        (freshState (2 ^ k) txBase rxBase txMem rxMem regs0)).1 =
        List.replicate j true ∧
      (sendN (2 ^ k) data len j
        (freshState (2 ^ k) txBase rxBase txMem rxMem regs0)).2.tx_tail = j ∧
      (sendN (2 ^ k) data len j
        (freshState (2 ^ k) txBase rxBase txMem rxMem regs0)).2.tx_head = 0 ∧
      (sendN (2 ^ k) data len j
        (freshState (2 ^ k) txBase rxBase txMem rxMem regs0)).2.packets_sent = j := by
  intro j
  induction j with
  | zero =>
      intro hj
      refine ⟨rfl, rfl, rfl, rfl⟩
  | succ n ih =>
      intro hj
      obtain ⟨ih1, ih2, ih3, ih4⟩ := ih (by omega)
      have hmask :
          ((sendN (2 ^ k) data len n
            (freshState (2 ^ k) txBase rxBase txMem rxMem regs0)).2.tx_tail + 1) &&&
            (2 ^ k - 1) = n + 1 := by
        rw [ih2, Nat.and_pow_two_sub_one_eq_mod]
        exact Nat.mod_eq_of_lt hj
      have hne :
          ((sendN (2 ^ k) data len n
            (freshState (2 ^ k) txBase rxBase txMem rxMem regs0)).2.tx_tail + 1) &&&
            (2 ^ k - 1) ≠
          (sendN (2 ^ k) data len n
            (freshState (2 ^ k) txBase rxBase txMem rxMem regs0)).2.tx_head := by
        rw [hmask, ih3]
        omega
      obtain ⟨q1, q2, q3, q4⟩ :=
        send_packet_not_full (2 ^ k)
          (sendN (2 ^ k) data len n
            (freshState (2 ^ k) txBase rxBase txMem rxMem regs0)).2 data len hne
      refine ⟨?_, ?_, ?_, ?_⟩
      · show (sendN (2 ^ k) data len n
            (freshState (2 ^ k) txBase rxBase txMem rxMem regs0)).1 ++ _ = _
        rw [ih1, q1, List.replicate_succ']
      · show (send_packet (2 ^ k)
            (sendN (2 ^ k) data len n
              (freshState (2 ^ k) txBase rxBase txMem rxMem regs0)).2 data len).2.tx_tail = _
        rw [q2, hmask]
      · show (send_packet (2 ^ k)
            (sendN (2 ^ k) data len n
              (freshState (2 ^ k) txBase rxBase txMem rxMem regs0)).2 data len).2.tx_head = _
        rw [q3, ih3]
      · show (send_packet (2 ^ k)
            (sendN (2 ^ k) data len n
              (freshState (2 ^ k) txBase rxBase txMem rxMem regs0)).2 data len).2.packets_sent = _
        rw [q4, ih4]

/-! ### Reset-poll lemmas -/

/-- If no read ever shows CTRL_RESET clear, the poll loop returns
`false` for every fuel. -/
theorem resetAux_never_clears (ctrl : Nat → Nat)
    (h : ∀ i, ctrl i &&& CTRL_RESET ≠ 0) :
    ∀ (fuel i : Nat), resetAux ctrl i fuel = false := by
  intro fuel
  induction fuel with
  | zero => intro i; rfl
  | succ f ih =>
      intro i
      rw [resetAux, if_neg (h i)]
      exact ih (i + 1)

/-- The poll loop never performs more reads than its fuel. -/
theorem resetReads_le (ctrl : Nat → Nat) :
    ∀ (fuel i : Nat), resetReads ctrl i fuel ≤ fuel := by
  intro fuel
  induction fuel with
  | zero => intro i; exact Nat.le_refl 0
  | succ f ih =>
      intro i
      rw [resetReads]
      by_cases h : ctrl i &&& CTRL_RESET = 0
      · rw [if_pos h]; omega
      · rw [if_neg h]
        have := ih (i + 1)
        omega

/-! ### Claim theorems -/

/-- C2: for every `N` strictly below the TX ring capacity (2048),
`N` sends from a freshly initialized device (no hardware completions)
all succeed and the sent-packet counter increases by exactly `N`. -/
theorem sends_below_capacity_all_succeed (N : Nat) (hN : N < TX_RING_SIZE)
    (txBase rxBase len : Nat) (txMem rxMem regs0 data : Nat → Nat) :
    (sendN TX_RING_SIZE data len N
      (freshState TX_RING_SIZE txBase rxBase txMem rxMem regs0)).1 =
      List.replicate N true ∧
    (sendN TX_RING_SIZE data len N
      (freshState TX_RING_SIZE txBase rxBase txMem rxMem regs0)).2.packets_sent =
      (freshState TX_RING_SIZE txBase rxBase txMem rxMem regs0).packets_sent + N := by
  have e : TX_RING_SIZE = 2 ^ 11 := by norm_num [TX_RING_SIZE]
  rw [e] at hN ⊢
  obtain ⟨h1, _, _, h4⟩ :=
    sendN_fresh_inv 11 data len txBase rxBase txMem rxMem regs0 N hN
  refine ⟨h1, ?_⟩
  rw [h4]
  simp [freshState]

/-- C2 witness: three sends from a fresh device all succeed and the
counter rises from 0 to 3. -/
theorem sends_below_capacity_all_succeed_witness :
    (sendN TX_RING_SIZE (fun _ => 0) 60 3
      (freshState TX_RING_SIZE 0 0 (fun _ => 0) (fun _ => 0) (fun _ => 0))).1 =
      List.replicate 3 true ∧
    (sendN TX_RING_SIZE (fun _ => 0) 60 3
      (freshState TX_RING_SIZE 0 0 (fun _ => 0) (fun _ => 0) (fun _ => 0))).2.packets_sent =
      (freshState TX_RING_SIZE 0 0 (fun _ => 0) (fun _ => 0) (fun _ => 0)).packets_sent + 3 :=
  sends_below_capacity_all_succeed 3 (by decide) 0 0 60
    (fun _ => 0) (fun _ => 0) (fun _ => 0) (fun _ => 0)

/-- C6: with `ctrl i` the value the i-th REG_CTRL read returns, if the
reset-complete bit never clears, `reset_device` returns `false`
(`initialize` then fails, the ResetTimeoutError outcome) after at most
its fixed budget of 1000 polls; the poll is a total function of the
read sequence, so it terminates for every behavior of the bit. -/
theorem reset_wait_bounded (ctrl : Nat → Nat)
    (h : ∀ i, ctrl i &&& CTRL_RESET ≠ 0) :
    reset_device ctrl = false ∧ resetReads ctrl 0 1000 ≤ 1000 :=
  ⟨resetAux_never_clears ctrl h 1000 0, resetReads_le ctrl 1000 0⟩

/-- C6 witness: a register whose reads always show CTRL_RESET set. -/
theorem reset_wait_bounded_witness :
    reset_device (fun _ => CTRL_RESET) = false ∧
    resetReads (fun _ => CTRL_RESET) 0 1000 ≤ 1000 :=
  reset_wait_bounded (fun _ => CTRL_RESET)
    (fun _ => by
      show CTRL_RESET &&& CTRL_RESET ≠ 0
      decide)

/-- C7: the NEON wide-vector copy path is byte-for-byte equivalent to
the plain byte-wise copy for every source, destination region and
count, and consequently after any `send_packet` the TX buffer pool is
the byte-wise copy of the payload into the producer slot whenever the
send succeeded (and unchanged when it failed), regardless of whether
the length is at or above the 64-byte threshold. -/
theorem neon_copy_equals_bytewise :
    (∀ (dst src : Nat → Nat) (dbase sbase n : Nat),
      neon_memcpy dst src dbase sbase n = memcpy_loop dst src dbase sbase n) ∧
    (∀ (size : Nat) (s : DriverState) (data : Nat → Nat) (len : Nat),
      (send_packet size s data len).2.tx_buffers =
        if (send_packet size s data len).1 = true then
          memcpy_loop s.tx_buffers data (s.tx_tail * MAX_PACKET_SIZE) 0 len
        else s.tx_buffers) := by
  refine ⟨neon_memcpy_eq_loop, ?_⟩
  intro size s data len
  rw [send_buffers_eq, memcpy_loop_eq_spec]

/-! ### The spec's concrete TX scenario (ring size 8) -/

/-- Fresh device for the spec's concrete scenario, with TX ring size 8
and zeroed buffer memory. -/
def scenario8Fresh : DriverState :=
  freshState 8 0 0 (fun _ => 0) (fun _ => 0) (fun _ => 0)

/-- Scenario payload: byte `i` has value `i + 1`; packets are 4 bytes
long. -/
def scenario8Data : Nat → Nat := fun i => i + 1

/-- Device state after the first 7 sends. -/
def scenario8After7 : DriverState := (sendN 8 scenario8Data 4 7 scenario8Fresh).2

/-- The 8th send attempt (the ring is full: next producer index 0
equals the consumer index 0). -/
def scenario8Send8 : Bool × DriverState :=
  send_packet 8 scenario8After7 scenario8Data 4

/-- The harness marks descriptor 0 as hardware-completed by setting
its DD bit. -/
def scenario8Marked : DriverState :=
  { scenario8Send8.2 with
      tx_ring := fun i =>
        if i = 0 then
          { scenario8Send8.2.tx_ring 0 with
              status := (scenario8Send8.2.tx_ring 0).status ||| DESC_STATUS_DD }
        else scenario8Send8.2.tx_ring i }

/-- The retried send after the completion was signalled. -/
def scenario8Retry : Bool × DriverState :=
  send_packet 8 scenario8Marked scenario8Data 4

/-- C1 counterexample: with TX ring size 8 and no hardware
completions the 8th send already fails — the fullness test
`next_tail == tx_head_` leaves one slot unusable, so it is false that
each of the first 8 send calls succeeds (the claim's 9th call could
not even be reached). -/
theorem scenario8_eighth_send_fails :
    (sendN 8 scenario8Data 4 8 scenario8Fresh).1 =
      List.replicate 7 true ++ [false] := by decide

/-- C1 (amended): with TX ring size 8 and no completions, the first 7
sends succeed and the 8th fails; after descriptor 0 is marked
hardware-completed, the retried send succeeds and writes its packet
into slot 7 — the pending producer slot — while slot 0 is merely
reclaimed (consumer cursor moves to 1, producer wraps to 0); the sent
counter equals the number of successful sends at every step
(7, 7, 8). -/
theorem scenario8_ring_contract :
    (sendN 8 scenario8Data 4 7 scenario8Fresh).1 = List.replicate 7 true ∧
    scenario8After7.packets_sent = 7 ∧
    scenario8After7.tx_tail = 7 ∧
    scenario8Send8.1 = false ∧
    scenario8Send8.2.packets_sent = 7 ∧
    scenario8Marked.tx_tail = 7 ∧
    scenario8Retry.1 = true ∧
    scenario8Retry.2.packets_sent = 8 ∧
    scenario8Retry.2.tx_head = 1 ∧
    scenario8Retry.2.tx_tail = 0 ∧
    scenario8Retry.2.tx_ring 7 =
      { buffer_addr := 7 * MAX_PACKET_SIZE,
        cmd_type_len := 4 ||| DESC_STATUS_EOP, status := 0 } ∧
    (∀ i, i < 4 →
      scenario8Retry.2.tx_buffers (7 * MAX_PACKET_SIZE + i) = scenario8Data i) := by
  decide

/-! ### C3: the receive contract -/

/-- C3 (amended): `receive_packet` contract.  If the DD ownership
flag of the descriptor at the head cursor is clear, it returns
"no packet" with the state (head cursor, received counter, all
descriptors, register file) unchanged and performs no observable
call.  If the flag is set, it returns the buffer address at the head
index together with the descriptor's length field, clears that
descriptor's status word (touching no other descriptor), advances the
head cursor by masked increment, writes the RX tail doorbell
register, increments the received-packet counter — and invokes no
caller-supplied packet handler: delivery is solely through the
returned values (the source's out-parameters). -/
theorem receive_contract (size : Nat) (s : DriverState) :
    ((s.rx_ring s.rx_head).status &&& DESC_STATUS_DD = 0 →
      receive_packet size s = (none, s, [])) ∧
    ((s.rx_ring s.rx_head).status &&& DESC_STATUS_DD ≠ 0 →
      (receive_packet size s).1 =
        some (s.rx_buffers_base + s.rx_head * MAX_PACKET_SIZE,
          (s.rx_ring s.rx_head).length) ∧
      ((receive_packet size s).2.1.rx_ring s.rx_head).status = 0 ∧
      (∀ i, i ≠ s.rx_head →
        (receive_packet size s).2.1.rx_ring i = s.rx_ring i) ∧
      (receive_packet size s).2.1.rx_head = (s.rx_head + 1) &&& (size - 1) ∧
      (receive_packet size s).2.1.regs =
        write_reg s.regs REG_RX_DESC_TAIL
          ((((s.rx_head + 1) &&& (size - 1)) + (2 ^ 32 - 1)) % 2 ^ 32 &&&
            (size - 1)) ∧
      (receive_packet size s).2.1.packets_received = s.packets_received + 1 ∧
      (receive_packet size s).2.2.any ObsEvent.isHandlerInvoke = false) := by
  constructor
  · intro h
    simp [receive_packet, h]
  · intro h
    refine ⟨?_, ?_, ?_, ?_, ?_, ?_, ?_⟩
    · simp [receive_packet, h]
    · simp [receive_packet, h]
    · intro i hi
      simp [receive_packet, h, hi]
    · simp [receive_packet, h]
    · simp [receive_packet, h]
    · simp [receive_packet, h]
    · simp [receive_packet, h, ObsEvent.isHandlerInvoke]

/-- A concrete device state whose RX head descriptor is ready:
descriptor 0 carries DD status 1 and length 64; the buffer pool base
is 200. -/
def rxReadyState : DriverState :=
  { freshState 8 100 200 (fun _ => 0) (fun _ => 0) (fun _ => 0) with
      rx_ring := fun i =>
        if i = 0 then
          { buffer_addr := 200, length := 64, checksum := 0, status := 1 }
        else initialRxRing 8 200 i }

/-- C3 counterexample: on a ready descriptor `receive_packet`
delivers the packet, yet its observable call trace is exactly the one
doorbell register write — it contains no handler invocation, so the
claim's "invokes the caller-supplied packet handler synchronously"
clause is false of the code (the function has no handler parameter at
all). -/
theorem receive_makes_no_handler_call :
    (receive_packet 8 rxReadyState).1 = some (200, 64) ∧
    (receive_packet 8 rxReadyState).2.2 =
      [ObsEvent.regWrite REG_RX_DESC_TAIL 0] ∧
    (receive_packet 8 rxReadyState).2.2.any ObsEvent.isHandlerInvoke = false := by
  decide

/-- C3 witness: the ready branch of the contract at `rxReadyState`. -/
theorem receive_contract_witness :
    (receive_packet 8 rxReadyState).1 =
      some (rxReadyState.rx_buffers_base +
        rxReadyState.rx_head * MAX_PACKET_SIZE,
        (rxReadyState.rx_ring rxReadyState.rx_head).length) ∧
    ((receive_packet 8 rxReadyState).2.1.rx_ring rxReadyState.rx_head).status = 0 ∧
    (receive_packet 8 rxReadyState).2.1.rx_head =
      (rxReadyState.rx_head + 1) &&& (8 - 1) ∧
    (receive_packet 8 rxReadyState).2.1.packets_received =
      rxReadyState.packets_received + 1 ∧
    (receive_packet 8 rxReadyState).2.2.any ObsEvent.isHandlerInvoke = false := by
  have h := (receive_contract 8 rxReadyState).2 (by decide)
  exact ⟨h.1, h.2.1, h.2.2.2.1, h.2.2.2.2.2.1, h.2.2.2.2.2.2⟩

/-! ### C4: backpressure, reclamation, no silent drop -/

/-- C4: `send_packet` detects fullness by comparing the masked next
producer index with the consumer index (conjunct 3: when they differ
the send succeeds without touching the consumer cursor).  When full it
first reclaims: the consumer cursor advances past exactly the maximal
contiguous run of descriptors from the consumer cursor whose DD
completion flag hardware has set (conjunct 1).  If the ring is still
full afterwards, the send returns the RingFullError failure leaving
the producer cursor, the sent counter, every descriptor, the buffer
pool and the register file unchanged — the packet is never silently
dropped (conjunct 2). -/
theorem send_backpressure_contract (k size : Nat) (hsize : size = 2 ^ k)
    (s : DriverState) (data : Nat → Nat) (len : Nat)
    (hh : s.tx_head < size) (ht : s.tx_tail < size) :
    (∃ r, r ≤ ringDist size s.tx_head s.tx_tail ∧
      (reclaim_tx_descriptors size s).tx_head = (s.tx_head + r) % size ∧
      (∀ j, j < r →
        (s.tx_ring ((s.tx_head + j) % size)).status &&& DESC_STATUS_DD ≠ 0) ∧
      (r = ringDist size s.tx_head s.tx_tail ∨
        (s.tx_ring ((s.tx_head + r) % size)).status &&& DESC_STATUS_DD = 0)) ∧
    ((send_packet size s data len).1 = false →
      (send_packet size s data len).2.tx_tail = s.tx_tail ∧
      (send_packet size s data len).2.packets_sent = s.packets_sent ∧
      (send_packet size s data len).2.tx_ring = s.tx_ring ∧
      (send_packet size s data len).2.tx_buffers = s.tx_buffers ∧
      (send_packet size s data len).2.regs = s.regs ∧
      (s.tx_tail + 1) % size = (send_packet size s data len).2.tx_head) ∧
    ((s.tx_tail + 1) % size ≠ s.tx_head →
      (send_packet size s data len).1 = true ∧
      (send_packet size s data len).2.tx_head = s.tx_head) := by
  subst hsize
  have hmask : (s.tx_tail + 1) &&& (2 ^ k - 1) = (s.tx_tail + 1) % 2 ^ k :=
    Nat.and_pow_two_sub_one_eq_mod _ _
  refine ⟨reclaim_spec k s hh ht, ?_, ?_⟩
  · intro hf
    by_cases h1 : (s.tx_tail + 1) &&& (2 ^ k - 1) = s.tx_head
    · by_cases h2 : (s.tx_tail + 1) &&& (2 ^ k - 1) =
          (reclaim_tx_descriptors (2 ^ k) s).tx_head
      · have hs : send_packet (2 ^ k) s data len =
            (false, reclaim_tx_descriptors (2 ^ k) s) := by
          simp only [send_packet]
          rw [if_pos h1, if_pos h2]
        rw [hs]
        refine ⟨rfl, rfl, rfl, rfl, rfl, ?_⟩
        rw [← hmask]
        exact h2
      · have hs : send_packet (2 ^ k) s data len =
            send_commit (reclaim_tx_descriptors (2 ^ k) s) data len
              ((s.tx_tail + 1) &&& (2 ^ k - 1)) := by
          simp only [send_packet]
          rw [if_pos h1, if_neg h2]
        rw [hs] at hf
        exact absurd hf (by simp [send_commit])
    · have hs : send_packet (2 ^ k) s data len =
          send_commit s data len ((s.tx_tail + 1) &&& (2 ^ k - 1)) := by
        simp only [send_packet]
        rw [if_neg h1]
      rw [hs] at hf
      exact absurd hf (by simp [send_commit])
  · intro hne
    have h1 : (s.tx_tail + 1) &&& (2 ^ k - 1) ≠ s.tx_head := by
      rw [hmask]
      exact hne
    obtain ⟨q1, _, q3, _⟩ := send_packet_not_full (2 ^ k) s data len h1
    exact ⟨q1, q3⟩

/-- C4 witness: on a fresh size-8 device the next producer index 1
differs from the consumer index 0, so the send succeeds and the
consumer cursor is untouched. -/
theorem send_backpressure_contract_witness :
    (send_packet 8 (freshState 8 0 0 (fun _ => 0) (fun _ => 0) (fun _ => 0))
      (fun _ => 0) 4).1 = true ∧
    (send_packet 8 (freshState 8 0 0 (fun _ => 0) (fun _ => 0) (fun _ => 0))
      (fun _ => 0) 4).2.tx_head =
      (freshState 8 0 0 (fun _ => 0) (fun _ => 0) (fun _ => 0)).tx_head :=
  (send_backpressure_contract 3 8 (by norm_num)
    (freshState 8 0 0 (fun _ => 0) (fun _ => 0) (fun _ => 0))
    (fun _ => 0) 4 (by decide) (by decide)).2.2 (by decide)

/-! ### C5: cleanup is not idempotent (code bug) -/

/-- C5 (code bug): `cleanup()` consults its pointer fields but never
nulls them (nor clears `initialized_`), and returns with the state it
was given; invoking it twice on a fully initialized device therefore
repeats every release — each region pointer is passed to `free` twice
and the window is unmapped twice — contradicting the required
idempotent teardown with no double release. -/
theorem cleanup_double_release :
    (cleanup ⟨true, 4096, 8192, 12288, 16384, 20480⟩).1 =
      (⟨true, 4096, 8192, 12288, 16384, 20480⟩ : ResourceState) ∧
    (cleanup ⟨true, 4096, 8192, 12288, 16384, 20480⟩).2 ++
        (cleanup (cleanup ⟨true, 4096, 8192, 12288, 16384, 20480⟩).1).2 =
      [ReleaseEvent.regClear, ReleaseEvent.munmapCall 4096,
        ReleaseEvent.freeCall 8192, ReleaseEvent.freeCall 12288,
        ReleaseEvent.freeCall 16384, ReleaseEvent.freeCall 20480,
        ReleaseEvent.regClear, ReleaseEvent.munmapCall 4096,
        ReleaseEvent.freeCall 8192, ReleaseEvent.freeCall 12288,
        ReleaseEvent.freeCall 16384, ReleaseEvent.freeCall 20480] := by
  decide

/-! ### C9: the payload copy is confined to the producer slot only
when the caller respects the unchecked MAX_PACKET_SIZE bound -/

/-- C9: whenever `length ≤ MAX_PACKET_SIZE` (9216), every byte
`send_packet` modifies in the TX buffer pool lies inside the
9216-byte slot of the producer index, so no adjacent slot is touched
(conjunct 1), and no descriptor other than the producer slot's own is
ever written (conjunct 2).  `send_packet` itself performs no check of
`length` against MAX_PACKET_SIZE: a 65535-byte send (the largest
uint16) from a fresh device is accepted and overwrites byte 0 of the
adjacent slot 1, so the bound is an unchecked caller precondition
(conjunct 3). -/
theorem send_copy_confined_iff_bounded :
    (∀ (size : Nat) (s : DriverState) (data : Nat → Nat) (len : Nat),
      len ≤ MAX_PACKET_SIZE →
      ∀ a, (send_packet size s data len).2.tx_buffers a ≠ s.tx_buffers a →
        s.tx_tail * MAX_PACKET_SIZE ≤ a ∧
        a < (s.tx_tail + 1) * MAX_PACKET_SIZE) ∧
    (∀ (size : Nat) (s : DriverState) (data : Nat → Nat) (len : Nat),
      ∀ i, i ≠ s.tx_tail →
        (send_packet size s data len).2.tx_ring i = s.tx_ring i) ∧
    ((send_packet TX_RING_SIZE
        (freshState TX_RING_SIZE 0 0 (fun _ => 0) (fun _ => 0) (fun _ => 0))
        (fun _ => 1) 65535).1 = true ∧
      (send_packet TX_RING_SIZE
        (freshState TX_RING_SIZE 0 0 (fun _ => 0) (fun _ => 0) (fun _ => 0))
        (fun _ => 1) 65535).2.tx_buffers MAX_PACKET_SIZE = 1 ∧
      (freshState TX_RING_SIZE 0 0 (fun _ => 0) (fun _ => 0)
        (fun _ => 0)).tx_buffers MAX_PACKET_SIZE = 0) := by
  constructor
  · intro size s data len hlen a ha
    rw [send_buffers_eq] at ha
    by_cases hs : (send_packet size s data len).1 = true
    · rw [if_pos hs] at ha
      simp only [memcpy_spec] at ha
      by_cases hr : s.tx_tail * MAX_PACKET_SIZE ≤ a ∧
          a < s.tx_tail * MAX_PACKET_SIZE + len
      · have he : (s.tx_tail + 1) * MAX_PACKET_SIZE =
            s.tx_tail * MAX_PACKET_SIZE + MAX_PACKET_SIZE := by ring
        omega
      · rw [if_neg hr] at ha
        exact absurd rfl ha
    · rw [if_neg hs] at ha
      exact absurd rfl ha
  constructor
  · intro size s data len i hi
    by_cases h1 : (s.tx_tail + 1) &&& (size - 1) = s.tx_head
    · by_cases h2 : (s.tx_tail + 1) &&& (size - 1) =
          (reclaim_tx_descriptors size s).tx_head
      · have he : send_packet size s data len =
            (false, reclaim_tx_descriptors size s) := by
          simp only [send_packet]
          rw [if_pos h1, if_pos h2]
        rw [he]
        rfl
      · have he : send_packet size s data len =
            send_commit (reclaim_tx_descriptors size s) data len
              ((s.tx_tail + 1) &&& (size - 1)) := by
          simp only [send_packet]
          rw [if_pos h1, if_neg h2]
        rw [he]
        simp [send_commit, reclaim_tx_descriptors, hi]
    · have he : send_packet size s data len =
          send_commit s data len ((s.tx_tail + 1) &&& (size - 1)) := by
        simp only [send_packet]
        rw [if_neg h1]
      rw [he]
      simp [send_commit, hi]
  · have hsucc : (send_packet TX_RING_SIZE
        (freshState TX_RING_SIZE 0 0 (fun _ => 0) (fun _ => 0) (fun _ => 0))
        (fun _ => 1) 65535).1 = true :=
      (send_packet_not_full TX_RING_SIZE _ (fun _ => 1) 65535 (by decide)).1
    refine ⟨hsucc, ?_, rfl⟩
    rw [show (send_packet TX_RING_SIZE
        (freshState TX_RING_SIZE 0 0 (fun _ => 0) (fun _ => 0) (fun _ => 0))
        (fun _ => 1) 65535).2.tx_buffers MAX_PACKET_SIZE =
        (if (send_packet TX_RING_SIZE
            (freshState TX_RING_SIZE 0 0 (fun _ => 0) (fun _ => 0) (fun _ => 0))
            (fun _ => 1) 65535).1 = true then
          memcpy_spec
            (freshState TX_RING_SIZE 0 0 (fun _ => 0) (fun _ => 0)
              (fun _ => 0)).tx_buffers (fun _ => 1)
            ((freshState TX_RING_SIZE 0 0 (fun _ => 0) (fun _ => 0)
              (fun _ => 0)).tx_tail * MAX_PACKET_SIZE) 0 65535
        else
          (freshState TX_RING_SIZE 0 0 (fun _ => 0) (fun _ => 0)
            (fun _ => 0)).tx_buffers) MAX_PACKET_SIZE from
      congrFun (send_buffers_eq TX_RING_SIZE _ (fun _ => 1) 65535) MAX_PACKET_SIZE]
    rw [if_pos hsucc]
    simp [memcpy_spec, freshState, MAX_PACKET_SIZE]

/-- C9 witness: a 4-byte send from a fresh size-8 device modifies
byte 2, which lies inside slot 0. -/
theorem send_copy_confined_iff_bounded_witness :
    (freshState 8 0 0 (fun _ => 0) (fun _ => 0) (fun _ => 0)).tx_tail *
        MAX_PACKET_SIZE ≤ 2 ∧
    2 < ((freshState 8 0 0 (fun _ => 0) (fun _ => 0)
        (fun _ => 0)).tx_tail + 1) * MAX_PACKET_SIZE :=
  send_copy_confined_iff_bounded.1 8
    (freshState 8 0 0 (fun _ => 0) (fun _ => 0) (fun _ => 0))
    (fun _ => 1) 4 (by decide) 2 (by decide)

/-! ### C10: the "physical address" is the virtual address -/

/-- C10: `get_physical_addr` is the identity on addresses; the lo/hi
register pair written from it recombines to exactly the virtual
address; every RX descriptor set up by `allocate_rings` carries
`buffer_addr` numerically equal to the slot's virtual address
`rx_buffers_ + i * MAX_PACKET_SIZE`; and every successful
`send_packet` stores in the descriptor the virtual address of the TX
slot — no address translation or DMA validation anywhere. -/
theorem physical_addr_is_identity :
    (∀ a, get_physical_addr a = a) ∧
    (∀ r, (get_physical_addr r &&& 0xFFFFFFFF) +
        2 ^ 32 * (get_physical_addr r >>> 32) = r) ∧
    (∀ size rxBase i, i < size →
      (initialRxRing size rxBase i).buffer_addr =
        rxBase + i * MAX_PACKET_SIZE) ∧
    (∀ (size : Nat) (s : DriverState) (data : Nat → Nat) (len : Nat),
      (send_packet size s data len).1 = true →
      ((send_packet size s data len).2.tx_ring s.tx_tail).buffer_addr =
        s.tx_buffers_base + s.tx_tail * MAX_PACKET_SIZE) := by
  refine ⟨fun a => rfl, ?_, ?_, ?_⟩
  · intro r
    have h32 : (0xFFFFFFFF : Nat) = 2 ^ 32 - 1 := by norm_num
    rw [get_physical_addr, h32, Nat.and_pow_two_sub_one_eq_mod,
      Nat.shiftRight_eq_div_pow]
    exact Nat.mod_add_div r (2 ^ 32)
  · intro size rxBase i hi
    simp [initialRxRing, hi, get_physical_addr]
  · intro size s data len hs
    by_cases h1 : (s.tx_tail + 1) &&& (size - 1) = s.tx_head
    · by_cases h2 : (s.tx_tail + 1) &&& (size - 1) =
          (reclaim_tx_descriptors size s).tx_head
      · have he : send_packet size s data len =
            (false, reclaim_tx_descriptors size s) := by
          simp only [send_packet]
          rw [if_pos h1, if_pos h2]
        rw [he] at hs
        exact absurd hs (by simp)
      · have he : send_packet size s data len =
            send_commit (reclaim_tx_descriptors size s) data len
              ((s.tx_tail + 1) &&& (size - 1)) := by
          simp only [send_packet]
          rw [if_pos h1, if_neg h2]
        rw [he]
        simp [send_commit, reclaim_tx_descriptors, get_physical_addr]
    · have he : send_packet size s data len =
          send_commit s data len ((s.tx_tail + 1) &&& (size - 1)) := by
        simp only [send_packet]
        rw [if_neg h1]
      rw [he]
      simp [send_commit, get_physical_addr]

/-- C10 witness: RX descriptor 0 of an 8-slot ring based at 200, and
the TX descriptor written by a successful send from a fresh device,
both hold the raw virtual slot address. -/
theorem physical_addr_is_identity_witness :
    (initialRxRing 8 200 0).buffer_addr = 200 + 0 * MAX_PACKET_SIZE ∧
    ((send_packet 8 (freshState 8 0 0 (fun _ => 0) (fun _ => 0) (fun _ => 0))
        (fun _ => 0) 4).2.tx_ring
      (freshState 8 0 0 (fun _ => 0) (fun _ => 0)
        (fun _ => 0)).tx_tail).buffer_addr =
      (freshState 8 0 0 (fun _ => 0) (fun _ => 0)
        (fun _ => 0)).tx_buffers_base +
      (freshState 8 0 0 (fun _ => 0) (fun _ => 0)
        (fun _ => 0)).tx_tail * MAX_PACKET_SIZE :=
  ⟨physical_addr_is_identity.2.2.1 8 200 0 (by decide),
    physical_addr_is_identity.2.2.2 8
      (freshState 8 0 0 (fun _ => 0) (fun _ => 0) (fun _ => 0))
      (fun _ => 0) 4 (by decide)⟩

end BareMetalNIC
